import Mathlib

/-!
Verification of the Neron bot's embedding-indexed message store and its
similarity-search / pagination protocol.

The development shallowly embeds the repository's code:
* `config.EMBEDDING_DIMENSION` — `config.py`.
* `insert_message`, `query_similar_messages` — `db.py`; the database table
  is an explicit list of rows, SQL `WHERE` / `ORDER BY` / `LIMIT` become
  `List.filter` / `List.insertionSort` / `List.take`. The pgvector cosine
  distance operator is an external backend primitive and is passed in as a
  function parameter `dist`, so every theorem holds for any distance.
* `trim_text`, `format_search_results`, the session bookkeeping of
  `search_command` and the callback dispatch of `handle_search_callback`
  — `bot.py`. Python strings are lists of characters; Python's `strftime`
  is an external library call passed in as a parameter.
-/

namespace config

/-- `config.py`: `EMBEDDING_DIMENSION = 1024`. -/
def EMBEDDING_DIMENSION : Nat := 1024

end config

/-- A timezone-aware instant, abstracted to an integer timeline point. -/
abbrev Timestamp := Int

/-- One persisted row of the `neron` table (`id`, `timestamp`, `text`,
`embedding`), as created by `setup_database` in `db.py`. -/
structure StoredRow where
  id : Nat
  timestamp : Timestamp
  text : List Char
  embedding : List ℚ
  deriving Repr, DecidableEq

/-- The persistent state: the rows of the `neron` table, in insertion order. -/
abbrev NeronTable := List StoredRow

/-- The error raised by `insert_message` / `query_similar_messages` when an
embedding has the wrong number of components (`ValueError` in `db.py`). -/
inductive DbError where
  | dimensionMismatch (expected got : Nat)
  deriving Repr, DecidableEq

/-- One element of the list returned by `query_similar_messages`:
the SQL `SELECT id, text, timestamp, 1 - (embedding <=> %s) as similarity`. -/
structure RankedResult where
  id : Nat
  text : List Char
  timestamp : Timestamp
  similarity : ℚ
  deriving Repr, DecidableEq

deriving instance DecidableEq for Except

/-- `db.py` `insert_message`: validates the embedding dimension, then appends
a row whose `id` the `SERIAL` column assigns (next integer, starting at 1)
and whose timestamp defaults to the current time `now` when omitted.
Returns the outcome together with the table after the call: on a validation
error nothing was written, so the table is returned unchanged. -/
def insert_message (now : Timestamp) (table : NeronTable) (text : List Char)
    (embedding : List ℚ) (timestamp : Option Timestamp) :
    Except DbError Nat × NeronTable :=
  if embedding.length ≠ config.EMBEDDING_DIMENSION then
    (.error (.dimensionMismatch config.EMBEDDING_DIMENSION embedding.length), table)
  else
    let ts := timestamp.getD now
    let newId := table.length + 1
    (.ok newId, table ++ [⟨newId, ts, text, embedding⟩])

/-- The comparison used by `ORDER BY embedding <=> %s`: ascending cosine
distance to the query embedding. -/
def distLE (dist : List ℚ → List ℚ → ℚ) (q : List ℚ) (a b : StoredRow) : Prop :=
  dist a.embedding q ≤ dist b.embedding q

instance (dist : List ℚ → List ℚ → ℚ) (q : List ℚ) :
    DecidableRel (distLE dist q) := fun a b =>
  inferInstanceAs (Decidable (dist a.embedding q ≤ dist b.embedding q))

/-- `db.py` `query_similar_messages`: validates the query embedding's
dimension, then runs the SQL query: an optional `WHERE` clause keeping rows
with `1 - (embedding <=> q) >= similarity_threshold`, `ORDER BY` ascending
cosine distance, `LIMIT limit`, selecting
`(id, text, timestamp, 1 - (embedding <=> q))` per row. The backend's
cosine-distance operator `<=>` is the parameter `dist`. -/
def query_similar_messages (dist : List ℚ → List ℚ → ℚ) (table : NeronTable)
    (query_embedding : List ℚ) (limit : Nat)
    (similarity_threshold : Option ℚ) : Except DbError (List RankedResult) :=
  if query_embedding.length ≠ config.EMBEDDING_DIMENSION then
    .error (.dimensionMismatch config.EMBEDDING_DIMENSION query_embedding.length)
  else
    let rows := match similarity_threshold with
      | some t =>
          table.filter (fun (row : StoredRow) =>
            decide (t ≤ 1 - dist row.embedding query_embedding))
      | none => table
    let sorted := rows.insertionSort (distLE dist query_embedding)
    let limited := sorted.take limit
    .ok (limited.map (fun (row : StoredRow) =>
      ⟨row.id, row.text, row.timestamp, 1 - dist row.embedding query_embedding⟩))

/-- Python's `s.rsplit(' ', 1)[0]` from `trim_text` in `bot.py`: everything
before the last occurrence of `sep`, or the whole string when `sep` does not
occur. -/
def rsplitFirst (sep : Char) (s : List Char) : List Char :=
  if s.reverse.dropWhile (fun c => c ≠ sep) = [] then s
  else ((s.reverse.dropWhile (fun c => c ≠ sep)).tail).reverse

/-- The `'...'` marker appended by `trim_text`. -/
def ellipsis : List Char := ['.', '.', '.']

/-- `bot.py` `trim_text`: returns the text unchanged when it fits in
`max_length`; otherwise cuts at `max_length`, backs up to the last space
(`text[:max_length].rsplit(' ', 1)[0]`), and appends `'...'`. -/
def trim_text (text : List Char) (max_length : Nat := 150) : List Char × Bool :=
  if text.length ≤ max_length then (text, false)
  else (rsplitFirst ' ' (text.take max_length) ++ ellipsis, true)

/-- One entry of the `buttons_data` list built by `format_search_results`:
`(result_index, text, timestamp, was_trimmed)`. -/
structure ButtonData where
  result_index : Nat
  text : List Char
  timestamp : Timestamp
  was_trimmed : Bool
  deriving Repr, DecidableEq

/-- Python's `l[a:b]` slice for non-negative bounds. -/
def pythonSlice (l : List α) (a b : Nat) : List α := (l.take b).drop a

/-- `bot.py` `format_search_results`: slices
`batch = results[offset:offset + batch_size]`, computes
`has_more = len(results) > offset + batch_size`, and builds one display line
`f"{trimmed_text} ({time_str})"` plus one `buttons_data` entry per batch
element, joining the lines with a blank line. `strftime` renders a
timestamp (`timestamp.strftime("%Y-%m-%d %H:%M")`), a C-library call kept
as a parameter. -/
def format_search_results (strftime : Timestamp → List Char)
    (results : List RankedResult) (offset : Nat := 0) (batch_size : Nat := 3) :
    List Char × List ButtonData × Bool :=
  let batch := (results.drop offset).take batch_size
  let has_more : Bool := decide (results.length > offset + batch_size)
  let entries := batch.enum.map (fun p =>
    let result_index := offset + p.1
    let trimmed := trim_text p.2.text 150
    let time_str := strftime p.2.timestamp
    (trimmed.1 ++ ' ' :: '(' :: time_str ++ [')'],
     ButtonData.mk result_index p.2.text p.2.timestamp trimmed.2))
  let lines := entries.map Prod.fst
  let buttons_data := entries.map Prod.snd
  (List.intercalate ['\n', '\n'] lines, buttons_data, has_more)

/-- The per-user session keys written by `search_command` in `bot.py`:
`context.user_data['search_results']` and `context.user_data['search_offset']`. -/
structure UserSession where
  search_results : List RankedResult
  search_offset : Nat
  deriving Repr, DecidableEq

/-- The session-relevant user interactions: a successful `/search` command
with non-empty results, and a `"more:{offset}"` pagination button press. -/
inductive BotEvent where
  | startSearch (results : List RankedResult)
  | showMore (offset : Nat)
  deriving Repr, DecidableEq

/-- The effect of one interaction on the per-user session state.
`search_command` (`bot.py` lines 173-178) runs
`user_data['search_results'] = results; user_data['search_offset'] = 0`;
the `"more"` branch of `handle_search_callback` (lines 238-269) reads
`search_results` and writes neither key. -/
def sessionStep (s : Option UserSession) : BotEvent → Option UserSession
  | .startSearch results => some ⟨results, 0⟩
  | .showMore _ => s

/-- Python's `l[i]` for an `int` index: a negative index counts from the
end; `none` is an `IndexError`. -/
def pythonIndex (l : List α) (i : Int) : Option α :=
  if 0 ≤ i then l.get? i.toNat
  else if 0 ≤ (l.length : Int) + i then l.get? ((l.length : Int) + i).toNat
  else none

/-- The observable outcome of the `"full:{index}"` branch of
`handle_search_callback` in `bot.py`. -/
inductive FullOutcome where
  | fullText (r : RankedResult)
  | resultNotFound
  | callbackError
  deriving Repr, DecidableEq

/-- The `"full"` branch of `handle_search_callback` (`bot.py` lines
221-236): `if result_index < len(results)` replies with the full text of
`results[result_index]`, the `else` branch replies "Result not found.",
and an `IndexError` escaping the lookup is caught by the surrounding
`except` clause ("Sorry, an error occurred."). -/
def handle_full_callback (results : List RankedResult) (result_index : Int) :
    FullOutcome :=
  if result_index < (results.length : Int) then
    match pythonIndex results result_index with
    | some r => .fullText r
    | none => .callbackError
  else .resultNotFound

/-- The observable outcome of the `"more:{offset}"` branch of
`handle_search_callback` in `bot.py`. -/
inductive MoreOutcome where
  | page (message : List Char) (buttons_data : List ButtonData)
      (nextMore : Option Nat)
  | noMoreResults
  deriving Repr, DecidableEq

/-- The `"more"` branch of `handle_search_callback` (`bot.py` lines
238-269): when the callback's offset is in range it formats the next batch
with `format_search_results(results, offset=offset)` (batch size 3) and,
if `has_more`, attaches a button whose payload is `f"more:{offset + 3}"`;
otherwise it replies "No more results.". -/
def handle_more_callback (strftime : Timestamp → List Char)
    (results : List RankedResult) (offset : Nat) : MoreOutcome :=
  if offset < results.length then
    let formatted := format_search_results strftime results offset 3
    .page formatted.1 formatted.2.1
      (if formatted.2.2 then some (offset + 3) else none)
  else .noMoreResults

/-- A 1024-dimensional all-zero embedding, used as concrete test data. -/
def emb0 : List ℚ := List.replicate config.EMBEDDING_DIMENSION 0

/-- A 1024-dimensional all-one embedding, used as concrete test data. -/
def emb1 : List ℚ := List.replicate config.EMBEDDING_DIMENSION 1

/-- A concrete two-row table used to instantiate the query theorems. -/
def demoTable : NeronTable :=
  [⟨1, 0, "hello".toList, emb0⟩, ⟨2, 1, "world".toList, emb1⟩]

/-- A degenerate distance function (every vector at distance 0), standing
in for the backend's cosine-distance operator in concrete witnesses. -/
def zeroDist : List ℚ → List ℚ → ℚ := fun _ _ => 0

/-- A concrete ranked-result list of four entries, used to instantiate the
session and pagination theorems. -/
def demoResults : List RankedResult :=
  [⟨1, ['a'], 0, 1⟩, ⟨2, ['b'], 1, (1 : ℚ) / 2⟩,
   ⟨3, ['c'], 2, 0⟩, ⟨4, ['d'], 3, -(1 : ℚ) / 2⟩]

/-- A single concrete ranked result for the negative-index scenario. -/
def soleResult : RankedResult := ⟨7, "hey".toList, 5, 1⟩

/-- The ranked results that `query_similar_messages` returns on `demoTable`
with the `zeroDist` distance (every row at distance 0, similarity 1). -/
def demoRanked : List RankedResult :=
  [⟨1, "hello".toList, 0, 1⟩, ⟨2, "world".toList, 1, 1⟩]

/-- The truncation example from the specification. -/
def quickFox : List Char := "the quick brown fox jumps".toList

/-- The expected display text of the truncation example. -/
def quickFoxCut : List Char := "the quick...".toList

/-- A short text (length below any bound used here). -/
def hiText : List Char := "hello".toList

/-- A text on which re-truncation changes the result:
`trim_text` at bound 6 yields `"aaaa..."` (7 characters), and truncating
that again at bound 6 yields `"aaaa....."`. -/
def growText : List Char := "aaaa bcdefg".toList

/-- A text longer than the small bound used in the length-bound witness. -/
def longText : List Char := "hello world".toList

set_option maxRecDepth 40000

/-- The first element kept by `dropWhile` falsifies the predicate. -/
theorem dropWhile_head_false {p : α → Bool} :
    ∀ (l : List α) (x : α) (rest : List α),
      l.dropWhile p = x :: rest → p x = false := by
  intro l
  induction l with
  | nil => intro x rest h; simp at h
  | cons a l ih =>
    intro x rest h
    rw [List.dropWhile_cons] at h
    by_cases hpa : p a = true
    · rw [if_pos hpa] at h
      exact ih x rest h
    · rw [if_neg hpa] at h
      injection h with h1 _
      subst h1
      simpa using hpa

/-- Dropping past the head of an appended singleton recovers the tail. -/
theorem drop_length_append (A B : List α) (a : α) :
    (A ++ a :: B).drop (A.length + 1) = B := by
  induction A with
  | nil => rfl
  | cons x A ih =>
    simp only [List.length_cons, List.cons_append, List.drop_succ_cons]
    exact ih

/-- When `sep` occurs in `s`, `rsplitFirst` keeps everything before the
last occurrence: `s` decomposes as that part, the separator, and the rest. -/
theorem rsplitFirst_append (s : List Char) (h : ' ' ∈ s) :
    rsplitFirst ' ' s ++ ' ' ::
        (s.drop ((rsplitFirst ' ' s).length + 1)) = s := by
  have hne : s.reverse.dropWhile (fun c => c ≠ ' ') ≠ [] := by
    intro hnil
    have hmem := (List.dropWhile_eq_nil_iff).mp hnil ' ' (List.mem_reverse.mpr h)
    simp at hmem
  obtain ⟨x, rest, hxr⟩ := List.exists_cons_of_ne_nil hne
  have hx : x = ' ' := by
    have hfalse := dropWhile_head_false s.reverse x rest hxr
    simpa using hfalse
  subst hx
  have hdecomp : s.reverse.takeWhile (fun c => c ≠ ' ') ++ ' ' :: rest = s.reverse := by
    rw [← hxr]
    exact List.takeWhile_append_dropWhile _ _
  have hsplit : rsplitFirst ' ' s = rest.reverse := by
    rw [rsplitFirst, if_neg (by rw [hxr]; simp), hxr]
    rfl
  have hs : s = rest.reverse ++ ' ' ::
      (s.reverse.takeWhile (fun c => c ≠ ' ')).reverse := by
    conv_lhs => rw [← s.reverse_reverse, ← hdecomp]
    rw [List.reverse_append, List.reverse_cons, List.append_assoc]
    rfl
  have hdrop : s.drop (rest.reverse.length + 1) =
      (s.reverse.takeWhile (fun c => c ≠ ' ')).reverse := by
    conv_lhs => rw [hs]
    exact drop_length_append _ _ _
  rw [hsplit, hdrop]
  exact hs.symm

/-- `rsplitFirst` never lengthens its input. -/
theorem rsplitFirst_length_le (sep : Char) (s : List Char) :
    (rsplitFirst sep s).length ≤ s.length := by
  rw [rsplitFirst]
  split
  · exact le_rfl
  · rw [List.length_reverse]
    have h1 : ((s.reverse.dropWhile (fun c => c ≠ sep)).tail).length ≤
        (s.reverse.dropWhile (fun c => c ≠ sep)).length := by
      rw [List.length_tail]
      omega
    have h2 : (s.reverse.dropWhile (fun c => c ≠ sep)).length ≤ s.reverse.length :=
      (List.dropWhile_sublist _).length_le
    rw [List.length_reverse] at h2
    exact le_trans h1 h2

/-- C6 counterexample: re-truncating the display text of
`trim_text "aaaa bcdefg" 6` at the same bound does not reproduce it —
the first pass yields `"aaaa..."` (7 characters, above the bound), so the
second pass truncates again and yields `"aaaa....."`. -/
theorem trim_retrim_not_idempotent :
    trim_text (trim_text growText 6).1 6 ≠ trim_text growText 6 := by
  decide

/-- C6 (amended): re-truncating an already-short-enough string is a no-op:
when `len(text) ≤ N`, `trim_text` returns the text unchanged, so applying
`trim_text` again to the display text gives the same result. -/
theorem trim_retrim_noop_when_short (text : List Char) (N : Nat)
    (h : text.length ≤ N) :
    trim_text (trim_text text N).1 N = trim_text text N := by
  simp [trim_text, h]

/-- Witness for `trim_retrim_noop_when_short` at `"hello"`, bound 150. -/
theorem trim_retrim_noop_when_short_witness :
    trim_text (trim_text hiText 150).1 150 = trim_text hiText 150 :=
  trim_retrim_noop_when_short hiText 150 (by decide)

/-- C7: `trim_text` returns a text of length at most `max_length` unchanged
with `was_trimmed = false`; on a longer text in which a space occurs before
the cut point, the display text is the cut prefix backed up to the last
space followed by the ellipsis — so it ends at a word boundary, never
inside a word — with `was_trimmed = true`; in particular
`trim_text "the quick brown fox jumps" 12 = ("the quick...", true)`. -/
theorem trim_text_word_boundary (text : List Char) (N : Nat) :
    (text.length ≤ N → trim_text text N = (text, false)) ∧
    (N < text.length → ' ' ∈ text.take N →
      trim_text text N = (rsplitFirst ' ' (text.take N) ++ ellipsis, true) ∧
      rsplitFirst ' ' (text.take N) ++ ' ' ::
          ((text.take N).drop ((rsplitFirst ' ' (text.take N)).length + 1)) =
        text.take N) ∧
    trim_text quickFox 12 = (quickFoxCut, true) := by
  refine ⟨fun h => by simp [trim_text, h],
    fun h hsp => ⟨?_, rsplitFirst_append _ hsp⟩, by decide⟩
  rw [trim_text, if_neg (by omega)]

/-- Witness for `trim_text_word_boundary` at the specification's example
`"the quick brown fox jumps"` with bound 12. -/
theorem trim_text_word_boundary_witness :
    trim_text quickFox 12 = (rsplitFirst ' ' (quickFox.take 12) ++ ellipsis, true) ∧
    rsplitFirst ' ' (quickFox.take 12) ++ ' ' ::
        ((quickFox.take 12).drop ((rsplitFirst ' ' (quickFox.take 12)).length + 1)) =
      quickFox.take 12 :=
  (trim_text_word_boundary quickFox 12).2.1 (by decide) (by decide)

/-- C10: for every text and every `max_length ≥ 1`, the display text
returned by `trim_text` has length at most `max_length + 3` — truncation
may exceed the bound only by the 3-character ellipsis. -/
theorem trim_display_length_bound (text : List Char) (N : Nat) (h : 1 ≤ N) :
    ((trim_text text N).1).length ≤ N + 3 := by
  rw [trim_text]
  split
  · rename_i hle
    simpa using le_trans hle (Nat.le_add_right N 3)
  · simp only [List.length_append]
    have h1 := rsplitFirst_length_le ' ' (text.take N)
    have h2 := List.length_take_le N text
    have h3 : ellipsis.length = 3 := rfl
    omega

/-- Witness for `trim_display_length_bound` at `"hello world"`, bound 1. -/
theorem trim_display_length_bound_witness :
    ((trim_text longText 1).1).length ≤ 1 + 3 :=
  trim_display_length_bound longText 1 (by decide)

/-- C1: for every embedding of length other than `EMBEDDING_DIMENSION`,
both `insert_message` and `query_similar_messages` fail with the
dimension-mismatch validation error, no row is written and the table is
unchanged. -/
theorem insert_and_query_reject_dimension_mismatch
    (now : Timestamp) (table : NeronTable) (text : List Char) (e : List ℚ)
    (ts : Option Timestamp) (dist : List ℚ → List ℚ → ℚ) (limit : Nat)
    (th : Option ℚ) (h : e.length ≠ config.EMBEDDING_DIMENSION) :
    insert_message now table text e ts =
      (.error (.dimensionMismatch config.EMBEDDING_DIMENSION e.length), table) ∧
    query_similar_messages dist table e limit th =
      .error (.dimensionMismatch config.EMBEDDING_DIMENSION e.length) := by
  constructor
  · rw [insert_message, if_pos h]
  · rw [query_similar_messages.eq_def, if_pos h]

/-- Witness for `insert_and_query_reject_dimension_mismatch` with a
1-component embedding against the two-row demo table. -/
theorem insert_and_query_reject_dimension_mismatch_witness :
    insert_message 0 demoTable hiText [(1 : ℚ)] none =
      (.error (.dimensionMismatch 1024 1), demoTable) ∧
    query_similar_messages zeroDist demoTable [(1 : ℚ)] 10 none =
      .error (.dimensionMismatch 1024 1) :=
  insert_and_query_reject_dimension_mismatch 0 demoTable hiText [1] none
    zeroDist 10 none (by decide)

/-- The ranked projection of a distance-sorted row list is non-increasing
in the similarity field. -/
theorem ranked_of_rows_sorted (dist : List ℚ → List ℚ → ℚ) (q : List ℚ)
    (rows : List StoredRow) (limit : Nat) :
    (((rows.insertionSort (distLE dist q)).take limit).map
        (fun (row : StoredRow) =>
          (⟨row.id, row.text, row.timestamp,
            1 - dist row.embedding q⟩ : RankedResult))).Pairwise
      (fun a b => b.similarity ≤ a.similarity) := by
  rw [List.pairwise_map]
  haveI : IsTotal StoredRow (distLE dist q) :=
    ⟨fun a b => le_total (dist a.embedding q) (dist b.embedding q)⟩
  haveI : IsTrans StoredRow (distLE dist q) :=
    ⟨fun _ _ _ hab hbc => le_trans hab hbc⟩
  have hs : List.Pairwise (distLE dist q)
      (rows.insertionSort (distLE dist q)) :=
    List.sorted_insertionSort _ _
  exact (hs.sublist (List.take_sublist limit _)).imp
    (fun hab => sub_le_sub_left hab 1)

/-- C2: whenever `query_similar_messages` succeeds, the returned sequence
is non-increasing in the similarity field (ascending cosine distance) and
contains at most `limit` results. -/
theorem query_similar_sorted_and_limited
    (dist : List ℚ → List ℚ → ℚ) (table : NeronTable) (q : List ℚ)
    (limit : Nat) (th : Option ℚ) (res : List RankedResult)
    (h : query_similar_messages dist table q limit th = .ok res) :
    res.Pairwise (fun a b => b.similarity ≤ a.similarity) ∧
      res.length ≤ limit := by
  rw [query_similar_messages.eq_def] at h
  split at h
  · simp at h
  · simp only [Except.ok.injEq] at h
    subst h
    refine ⟨ranked_of_rows_sorted dist q _ limit, ?_⟩
    rw [List.length_map]
    exact List.length_take_le _ _

/-- Witness for `query_similar_sorted_and_limited` on the two-row demo
table with the zero distance and limit 12. -/
theorem query_similar_sorted_and_limited_witness :
    demoRanked.Pairwise (fun a b => b.similarity ≤ a.similarity) ∧
      demoRanked.length ≤ 12 :=
  query_similar_sorted_and_limited zeroDist demoTable emb0 12 none demoRanked
    (by with_unfolding_all decide)

/-- C3: every result returned by `query_similar_messages` under a
similarity threshold `t` has `similarity ≥ t`, where similarity is
`1 - cosine_distance(stored embedding, query embedding)`. -/
theorem query_similar_threshold_filter
    (dist : List ℚ → List ℚ → ℚ) (table : NeronTable) (q : List ℚ)
    (limit : Nat) (t : ℚ) (res : List RankedResult)
    (h : query_similar_messages dist table q limit (some t) = .ok res) :
    ∀ r ∈ res, t ≤ r.similarity := by
  rw [query_similar_messages.eq_def] at h
  split at h
  · simp at h
  · simp only [Except.ok.injEq] at h
    subst h
    intro r hr
    rw [List.mem_map] at hr
    obtain ⟨row, hrow, rfl⟩ := hr
    have h1 := (List.take_sublist limit _).subset hrow
    have h2 := (List.perm_insertionSort (distLE dist q) _).mem_iff.mp h1
    have h3 := List.of_mem_filter h2
    exact of_decide_eq_true h3

/-- Witness for `query_similar_threshold_filter` at threshold 0 on the
two-row demo table: the first returned result has similarity at least 0. -/
theorem query_similar_threshold_filter_witness :
    (0 : ℚ) ≤ (RankedResult.mk 1 ("hello".toList) 0 1).similarity :=
  query_similar_threshold_filter zeroDist demoTable emb0 12 0 demoRanked
    (by with_unfolding_all decide) (RankedResult.mk 1 ("hello".toList) 0 1)
    (by decide)

/-- Mapping a function of the payload over an enumerated list ignores the
indices. -/
theorem enumFrom_map_comp_snd (f : α → β) :
    ∀ (n : Nat) (l : List α), (l.enumFrom n).map (fun p => f p.2) = l.map f
  | _, [] => rfl
  | n, a :: l => by
    simp only [List.enumFrom, List.map_cons]
    exact congrArg (f a :: ·) (enumFrom_map_comp_snd f (n + 1) l)

/-- `List.enum` version of `enumFrom_map_comp_snd`. -/
theorem enum_map_comp_snd (f : α → β) (l : List α) :
    l.enum.map (fun p => f p.2) = l.map f :=
  enumFrom_map_comp_snd f 0 l

/-- The items (text and timestamp) of the `buttons_data` built by
`format_search_results` are exactly those of the sliced batch, in order. -/
theorem format_buttons_items (strftime : Timestamp → List Char)
    (results : List RankedResult) (offset batch_size : Nat) :
    ((format_search_results strftime results offset batch_size).2.1).map
        (fun b => (b.text, b.timestamp)) =
      ((results.drop offset).take batch_size).map
        (fun r => (r.text, r.timestamp)) := by
  simp only [format_search_results, List.map_map]
  exact enum_map_comp_snd (fun (r : RankedResult) => (r.text, r.timestamp)) _

/-- C4: on an unchanged result sequence, the batch served at offset 0 with
batch size 3 followed by the batch at offset 3 with batch size 3 yields
exactly the items, in the same order, of the direct Python slices `[0:3]`
and `[3:6]` of the full cached sequence. -/
theorem format_batches_match_direct_slices (strftime : Timestamp → List Char)
    (results : List RankedResult) :
    ((format_search_results strftime results 0 3).2.1).map
        (fun b => (b.text, b.timestamp)) =
      (pythonSlice results 0 3).map (fun r => (r.text, r.timestamp)) ∧
    ((format_search_results strftime results 3 3).2.1).map
        (fun b => (b.text, b.timestamp)) =
      (pythonSlice results 3 6).map (fun r => (r.text, r.timestamp)) := by
  constructor
  · rw [format_buttons_items]
    simp [pythonSlice]
  · rw [format_buttons_items]
    rw [pythonSlice, List.drop_take]

/-- C5: the `has_more` flag computed by `format_search_results` is true
exactly when the total number of cached results is strictly greater than
`offset + batch_size`. -/
theorem format_has_more_iff (strftime : Timestamp → List Char)
    (results : List RankedResult) (offset batch_size : Nat) :
    (format_search_results strftime results offset batch_size).2.2 = true ↔
      offset + batch_size < results.length := by
  simp [format_search_results]

/-- C8 counterexample: after a search (4 cached results) followed by the
pagination action `"more:3"`, the stored `search_offset` is still 0 even
though the last-served position is 3 (the batch at offset 3 was served,
since 3 is within range). -/
theorem stored_offset_not_advanced :
    List.foldl sessionStep (none : Option UserSession)
        [BotEvent.startSearch demoResults, BotEvent.showMore 3] =
      some ⟨demoResults, 0⟩ ∧
    (0 : Nat) ≠ 3 ∧ 3 < demoResults.length :=
  ⟨rfl, by decide, by decide⟩

/-- C8 (amended): a new search stores the results and sets the stored
offset to 0, overwriting any prior session; a pagination action leaves the
stored session untouched — the position advances only through the callback
payload, the served page carrying a next-page payload of `offset + 3`. -/
theorem session_offset_semantics (s : Option UserSession)
    (results : List RankedResult) (k : Nat) (strftime : Timestamp → List Char) :
    sessionStep s (.startSearch results) = some ⟨results, 0⟩ ∧
    sessionStep s (.showMore k) = s ∧
    (k < results.length →
      handle_more_callback strftime results k =
        .page (format_search_results strftime results k 3).1
          (format_search_results strftime results k 3).2.1
          (if (format_search_results strftime results k 3).2.2 then
            some (k + 3) else none)) := by
  refine ⟨rfl, rfl, fun hk => ?_⟩
  rw [handle_more_callback, if_pos hk]

/-- Witness for `session_offset_semantics` at the four-result demo list
and pagination offset 3. -/
theorem session_offset_semantics_witness :
    sessionStep none (.startSearch demoResults) = some ⟨demoResults, 0⟩ ∧
    sessionStep none (.showMore 3) = none ∧
    handle_more_callback (fun _ => []) demoResults 3 =
      .page (format_search_results (fun _ => []) demoResults 3 3).1
        (format_search_results (fun _ => []) demoResults 3 3).2.1
        (if (format_search_results (fun _ => []) demoResults 3 3).2.2 then
          some (3 + 3) else none) := by
  obtain ⟨h1, h2, h3⟩ := session_offset_semantics none demoResults 3 (fun _ => [])
  exact ⟨h1, h2, h3 (by decide)⟩

/-- C9 counterexample: with a single cached result and index -2, the bounds
guard accepts the index (-2 < 1) but the lookup raises `IndexError`, so the
handler reports the generic error — no element counted from the end is
returned. -/
theorem negative_index_out_of_range_errors :
    handle_full_callback [soleResult] (-2) = .callbackError := by
  decide

/-- C9 (amended): for a negative index `i` with `-len(results) ≤ i`, the
bounds guard accepts the index and the lookup returns the element at
position `len(results) + i`, counted from the end — not the not-found
outcome. -/
theorem negative_index_counts_from_end (results : List RankedResult) (i : Int)
    (hneg : i < 0) (hge : -(results.length : Int) ≤ i) :
    ∃ r, results.get? ((results.length : Int) + i).toNat = some r ∧
      handle_full_callback results i = .fullText r := by
  have hj : (((results.length : Int) + i)).toNat < results.length := by omega
  refine ⟨results.get ⟨((results.length : Int) + i).toNat, hj⟩,
    List.get?_eq_get hj, ?_⟩
  rw [handle_full_callback, if_pos (by omega)]
  rw [pythonIndex, if_neg (by omega), if_pos (by omega)]
  rw [List.get?_eq_get hj]

/-- Witness for `negative_index_counts_from_end`: index -1 on the
four-result demo list returns its last element. -/
theorem negative_index_counts_from_end_witness :
    handle_full_callback demoResults (-1) =
      .fullText ⟨4, ['d'], 3, -(1 : ℚ) / 2⟩ := by
  obtain ⟨r, hr, hout⟩ :=
    negative_index_counts_from_end demoResults (-1) (by decide) (by decide)
  have hr' : demoResults.get? ((demoResults.length : Int) + -1).toNat =
      some (⟨4, ['d'], 3, -(1 : ℚ) / 2⟩ : RankedResult) := by
    with_unfolding_all decide
  have hlit := (hr'.symm.trans hr)
  injection hlit with hlit
  rw [hlit]
  exact hout
